import Mathlib

/-!
Verification development for the soroban host environment sources:
the host-function registry generator (`soroban-env-macros`), the declared
host-function table (`stellar-contract-env-common/src/env.rs`), the event
journal rollback behaviour (pinned by `soroban-env-host/src/test/event.rs`),
the budget meter (modelled from the specification), and the token storage
TTL constants (`soroban-env-host/src/native_contract/token/storage_types.rs`).
-/

namespace Gen

/-- Argument of a declared host function, per the `Arg` struct of
`soroban-env-macros/src/call_macro_with_all_host_functions.rs`. -/
structure Arg where
  name : String
  type : String
deriving DecidableEq, Repr

/-- A declared host function, per the `Function` struct of
`call_macro_with_all_host_functions.rs` (`export`, `name`, `args`,
`return`, `docs`). -/
structure Func where
  exportCode : String
  name : String
  args : List Arg
  ret : String
  docs : Option String
deriving DecidableEq, Repr

/-- A declared module, per the `Module` struct: name, export code, functions. -/
structure Module where
  name : String
  exportCode : String
  functions : List Func
deriving DecidableEq, Repr

/-- The registry input, per the `Root` struct: a list of modules. -/
structure Root where
  modules : List Module
deriving DecidableEq, Repr

/-- Structured form of the `syn::Error` values produced by `generate`: the
payload fields are exactly the data interpolated into each error message. -/
inductive GenError where
  | tooMany (module : String) (count : Nat) (limit : Nat)
  | unexpectedExport (pathName : String) (actual : String) (expected : String)
  | duplicateExport (exportName : String) (pathName : String) (existingName : String)
deriving DecidableEq, Repr

/-- The fixed export-code alphabet, in the order built by
`iter::once('_').chain('0'..='9').chain('a'..='z').chain('A'..='Z')`. -/
def expChars : List Char :=
  ("_0123456789abcdefghijklmnopqrstuvwxyzABCDEFGHIJKLMNOPQRSTUVWXYZ").toList

/-- `max_names = exp_chars.len() + exp_chars.len() * exp_chars.len()`. -/
def maxNames : Nat := expChars.length + expChars.length * expChars.length

/-- `expected_fn_export_names`: the 1-character names in alphabet order,
followed by the 2-character names in cartesian-product order
(`iproduct!` iterates its first iterator in the outer loop). -/
def expectedFnExportNames : List String :=
  (expChars.map (fun c => String.mk [c])) ++
    (expChars.flatMap (fun a => expChars.map (fun b => String.mk [a, b])))

/-- Lookup in the `export_names` map, modelled as an association list whose
entries are `(export_name, path_name)`; only first-free insertion is ever
performed, so first-match lookup agrees with `HashMap` behaviour. -/
def lookupEntry (acc : List (String × String)) (k : String) : Option String :=
  (acc.find? (fun e => e.1 = k)).map (fun e => e.2)

/-- The qualified name `format!("{}.{}", m.name, f.name)`. -/
def pathName (m : Module) (f : Func) : String := m.name ++ "." ++ f.name

/-- The combined export name `format!("{}.{}", m.export, f.export)`. -/
def combinedName (m : Module) (f : Func) : String :=
  m.exportCode ++ "." ++ f.exportCode

/-- The per-function loop of `generate`: for each function paired with its
expected export name, first check the export-name scheme, then check the
`export_names` map for a duplicate, then insert. -/
def checkFns (m : Module) :
    List (Func × String) → List (String × String) →
      Except GenError (List (String × String))
  | [], acc => Except.ok acc
  | (f, expected) :: rest, acc =>
    if f.exportCode ≠ expected then
      Except.error (GenError.unexpectedExport (pathName m f) f.exportCode expected)
    else
      match lookupEntry acc (combinedName m f) with
      | some existing =>
          Except.error
            (GenError.duplicateExport (combinedName m f) (pathName m f) existing)
      | none => checkFns m rest ((combinedName m f, pathName m f) :: acc)

/-- The per-module body of `generate`: the capacity check
(`m.functions.len() > max_names`) followed by the function loop over
`m.functions.iter().zip(expected_fn_export_names)`. -/
def checkModule (m : Module) (acc : List (String × String)) :
    Except GenError (List (String × String)) :=
  if m.functions.length > maxNames then
    Except.error (GenError.tooMany m.name m.functions.length maxNames)
  else
    checkFns m (m.functions.zip expectedFnExportNames) acc

/-- The module loop of `generate`, threading the `export_names` map. -/
def checkModules :
    List Module → List (String × String) →
      Except GenError (List (String × String))
  | [], acc => Except.ok acc
  | m :: rest, acc =>
    match checkModule m acc with
    | Except.error e => Except.error e
    | Except.ok acc' => checkModules rest acc'

/-- The validation performed by `generate` on a parsed registry input
(code generation after a successful validation is not modelled: it is
infallible). -/
def generate (root : Root) : Except GenError Unit :=
  match checkModules root.modules [] with
  | Except.error e => Except.error e
  | Except.ok _ => Except.ok ()

/-- A module's declared export codes, in declaration order. -/
def fnExports (m : Module) : List String := m.functions.map (fun f => f.exportCode)

/-- Capacity condition: at most `max_names` functions. -/
def capacityOk (m : Module) : Prop := m.functions.length ≤ maxNames

/-- Scheme condition: the declared export codes are exactly the prefix of the
deterministic enumeration of the module's length. -/
def schemeOk (m : Module) : Prop :=
  fnExports m = expectedFnExportNames.take m.functions.length

/-- All combined `<module export>.<function export>` names of a module list,
in declaration order. -/
def combinedNames (ms : List Module) : List String :=
  ms.flatMap (fun m => m.functions.map (fun f => combinedName m f))

/-- All `(module export, function export)` pairs, in declaration order. -/
def exportPairs (ms : List Module) : List (String × String) :=
  ms.flatMap (fun m => m.functions.map (fun f => (m.exportCode, f.exportCode)))

instance : DecidablePred capacityOk := fun _ =>
  inferInstanceAs (Decidable (_ ≤ _))

instance : DecidablePred schemeOk := fun _ =>
  inferInstanceAs (Decidable (_ = _))

theorem lookupEntry_eq_none {acc : List (String × String)} {k : String} :
    lookupEntry acc k = none ↔ ∀ e ∈ acc, e.1 ≠ k := by
  simp [lookupEntry, List.find?_eq_none]

theorem lookupEntry_mem {acc : List (String × String)} {k v : String}
    (h : lookupEntry acc k = some v) : (k, v) ∈ acc := by
  unfold lookupEntry at h
  cases hf : acc.find? (fun e => e.1 = k) with
  | none => simp [hf] at h
  | some e =>
    simp [hf] at h
    have hmem := List.mem_of_find?_eq_some hf
    have hp := List.find?_some hf
    simp at hp
    have : e = (k, v) := by
      cases e
      simp_all
    rw [this] at hmem
    exact hmem

theorem zip_forall_eq_iff {α β : Type} [DecidableEq β] (f : α → β) :
    ∀ (xs : List α) (ys : List β), xs.length ≤ ys.length →
      ((∀ p ∈ xs.zip ys, f p.1 = p.2) ↔ xs.map f = ys.take xs.length)
  | [], _, _ => by simp
  | x :: xs, [], h => by simp at h
  | x :: xs, y :: ys, h => by
    simp only [List.zip_cons_cons, List.mem_cons, List.map_cons, List.length_cons,
      List.take_succ_cons, List.cons.injEq]
    constructor
    · intro hall
      refine ⟨hall (x, y) (Or.inl rfl), ?_⟩
      exact (zip_forall_eq_iff f xs ys (Nat.le_of_succ_le_succ h)).1
        (fun p hp => hall p (Or.inr hp))
    · rintro ⟨h1, h2⟩ p hp
      rcases hp with hp | hp
      · rw [hp]
        exact h1
      · exact (zip_forall_eq_iff f xs ys (Nat.le_of_succ_le_succ h)).2 h2 p hp

theorem checkFns_ok_iff (m : Module) :
    ∀ (ps : List (Func × String)) (acc : List (String × String)),
      (∃ acc', checkFns m ps acc = Except.ok acc') ↔
        ((∀ p ∈ ps, p.1.exportCode = p.2) ∧
          (ps.map (fun p => combinedName m p.1)).Nodup ∧
          (∀ p ∈ ps, ∀ e ∈ acc, e.1 ≠ combinedName m p.1))
  | [], acc => by simp [checkFns]
  | (f, expected) :: rest, acc => by
    by_cases hexp : f.exportCode = expected
    · simp only [checkFns, hexp, ne_eq, not_true_eq_false, if_neg, ite_false,
        not_false_eq_true, if_false]
      cases hl : lookupEntry acc (combinedName m f) with
      | some existing =>
        have hm := lookupEntry_mem hl
        constructor
        · rintro ⟨acc', hacc'⟩
          simp at hacc'
        · rintro ⟨_, _, hfresh⟩
          exact absurd rfl (hfresh (f, expected) (List.mem_cons_self _ _)
            (combinedName m f, existing) hm)
      | none =>
        rw [checkFns_ok_iff m rest ((combinedName m f, pathName m f) :: acc)]
        have hnone := lookupEntry_eq_none.1 hl
        constructor
        · rintro ⟨hall, hnd, hfresh⟩
          refine ⟨fun p hp => ?_, ?_, fun p hp e he => ?_⟩
          · rcases List.mem_cons.1 hp with hp | hp
            · rw [hp]
              exact hexp
            · exact hall p hp
          · simp only [List.map_cons, List.nodup_cons]
            refine ⟨fun hmem => ?_, hnd⟩
            rcases List.mem_map.1 hmem with ⟨p, hp, hpe⟩
            exact absurd hpe.symm (hfresh p hp (combinedName m f, pathName m f)
              (List.mem_cons_self _ _))
          · rcases List.mem_cons.1 hp with hp | hp
            · rw [hp]
              exact hnone e he
            · exact hfresh p hp e (List.mem_cons_of_mem _ he)
        · rintro ⟨hall, hnd, hfresh⟩
          have hnotin : combinedName m f ∉ rest.map (fun p => combinedName m p.1) := by
            simp only [List.map_cons, List.nodup_cons] at hnd
            exact hnd.1
          refine ⟨fun p hp => hall p (List.mem_cons_of_mem _ hp), ?_,
            fun p hp e he => ?_⟩
          · simp only [List.map_cons, List.nodup_cons] at hnd
            exact hnd.2
          · rcases List.mem_cons.1 he with he | he
            · rw [he]
              intro hc
              have hc' : combinedName m f = combinedName m p.1 := hc
              exact hnotin (hc' ▸ List.mem_map_of_mem (fun p => combinedName m p.1) hp)
            · exact hfresh p (List.mem_cons_of_mem _ hp) e he
    · constructor
      · rintro ⟨acc', hacc'⟩
        simp [checkFns, hexp] at hacc'
      · rintro ⟨hall, _, _⟩
        exact absurd (hall (f, expected) (List.mem_cons_self _ _)) hexp

/-- The length of the deterministic enumeration is exactly `max_names`. -/
theorem expectedFnExportNames_length : expectedFnExportNames.length = maxNames := by
  simp [expectedFnExportNames, maxNames, List.length_flatMap, Function.comp_def,
    List.map_const']

theorem checkFns_ok_acc (m : Module) :
    ∀ (ps : List (Func × String)) (acc acc' : List (String × String)),
      checkFns m ps acc = Except.ok acc' →
      acc' = (ps.map (fun p => (combinedName m p.1, pathName m p.1))).reverse ++ acc
  | [], acc, acc', h => by
    simp [checkFns] at h
    simp [h.symm]
  | (f, expected) :: rest, acc, acc', h => by
    by_cases hexp : f.exportCode = expected
    · simp only [checkFns, hexp, ne_eq, not_true_eq_false, ite_false] at h
      cases hl : lookupEntry acc (combinedName m f) with
      | some existing => rw [hl] at h; simp at h
      | none =>
        rw [hl] at h
        have := checkFns_ok_acc m rest ((combinedName m f, pathName m f) :: acc) acc' h
        rw [this]
        simp
    · simp [checkFns, hexp] at h

theorem checkModule_ok_iff (m : Module) (acc : List (String × String)) :
    (∃ acc', checkModule m acc = Except.ok acc') ↔
      (capacityOk m ∧ schemeOk m ∧
        (m.functions.map (fun f => combinedName m f)).Nodup ∧
        (∀ f ∈ m.functions, ∀ e ∈ acc, e.1 ≠ combinedName m f)) := by
  unfold checkModule
  by_cases hcap : m.functions.length > maxNames
  · simp only [hcap, ite_true]
    constructor
    · rintro ⟨acc', h⟩
      simp at h
    · rintro ⟨hok, _⟩
      exact absurd hcap (not_lt.2 hok)
  · have hle : m.functions.length ≤ maxNames := not_lt.1 hcap
    have hlen : m.functions.length ≤ expectedFnExportNames.length := by
      rw [expectedFnExportNames_length]
      exact hle
    have hfst : (m.functions.zip expectedFnExportNames).map Prod.fst = m.functions :=
      List.map_fst_zip _ _ hlen
    simp only [hcap, ite_false]
    rw [checkFns_ok_iff]
    rw [zip_forall_eq_iff (fun f => f.exportCode) _ _ hlen]
    have hmapc :
        ((m.functions.zip expectedFnExportNames).map (fun p => combinedName m p.1)) =
          m.functions.map (fun f => combinedName m f) := by
      have hcomp :
          ((m.functions.zip expectedFnExportNames).map (fun p => combinedName m p.1)) =
            ((m.functions.zip expectedFnExportNames).map Prod.fst).map
              (fun f => combinedName m f) := by
        rw [List.map_map]
        rfl
      rw [hcomp, hfst]
    have hmem :
        ∀ p ∈ m.functions.zip expectedFnExportNames, p.1 ∈ m.functions := by
      intro p hp
      rw [← hfst]
      exact List.mem_map_of_mem Prod.fst hp
    constructor
    · rintro ⟨hsch, hnd, hfresh⟩
      refine ⟨hle, hsch, hmapc ▸ hnd, fun f hf e he => ?_⟩
      rw [← hfst] at hf
      rcases List.mem_map.1 hf with ⟨p, hp, hpe⟩
      exact hpe ▸ hfresh p hp e he
    · rintro ⟨_, hsch, hnd, hfresh⟩
      exact ⟨hsch, hmapc.symm ▸ hnd, fun p hp e he => hfresh p.1 (hmem p hp) e he⟩

theorem fresh_iff_not_mem_keys (acc : List (String × String)) (n : String) :
    (∀ e ∈ acc, e.1 ≠ n) ↔ n ∉ acc.map Prod.fst := by
  constructor
  · intro h hn
    rcases List.mem_map.1 hn with ⟨e, he, hee⟩
    exact h e he hee
  · intro h e he hee
    exact h (hee ▸ List.mem_map_of_mem Prod.fst he)

theorem zip_combined_map (m : Module) (h : capacityOk m) :
    ((m.functions.zip expectedFnExportNames).map (fun p => combinedName m p.1)) =
      m.functions.map (fun f => combinedName m f) := by
  have hlen : m.functions.length ≤ expectedFnExportNames.length := by
    rw [expectedFnExportNames_length]
    exact h
  have hfst : (m.functions.zip expectedFnExportNames).map Prod.fst = m.functions :=
    List.map_fst_zip _ _ hlen
  have hcomp :
      ((m.functions.zip expectedFnExportNames).map (fun p => combinedName m p.1)) =
        ((m.functions.zip expectedFnExportNames).map Prod.fst).map
          (fun f => combinedName m f) := by
    rw [List.map_map]
    rfl
  rw [hcomp, hfst]

theorem combinedNames_cons (m : Module) (rest : List Module) :
    combinedNames (m :: rest) =
      m.functions.map (fun f => combinedName m f) ++ combinedNames rest := by
  simp [combinedNames]

theorem checkModules_ok_iff :
    ∀ (ms : List Module) (acc : List (String × String)),
      (∃ acc', checkModules ms acc = Except.ok acc') ↔
        ((∀ m ∈ ms, capacityOk m ∧ schemeOk m) ∧
          (combinedNames ms).Nodup ∧
          (∀ n ∈ combinedNames ms, ∀ e ∈ acc, e.1 ≠ n))
  | [], acc => by simp [checkModules, combinedNames]
  | m :: rest, acc => by
    rw [combinedNames_cons]
    cases hcm : checkModule m acc with
    | error err =>
      constructor
      · rintro ⟨acc', h⟩
        simp [checkModules, hcm] at h
      · rintro ⟨hcs, hnd, hfresh⟩
        rcases List.nodup_append.1 hnd with ⟨hndm, _, _⟩
        have hok : ∃ acc', checkModule m acc = Except.ok acc' := by
          rw [checkModule_ok_iff]
          refine ⟨(hcs m (List.mem_cons_self _ _)).1, (hcs m (List.mem_cons_self _ _)).2,
            hndm, fun f hf e' he' => ?_⟩
          exact hfresh _ (List.mem_append_left _ (List.mem_map_of_mem _ hf)) e' he'
        rcases hok with ⟨acc', h⟩
        rw [hcm] at h
        simp at h
    | ok acc₁ =>
      have hlhs : (∃ acc', checkModules (m :: rest) acc = Except.ok acc') ↔
          (∃ acc', checkModules rest acc₁ = Except.ok acc') := by
        simp [checkModules, hcm]
      rw [hlhs, checkModules_ok_iff rest acc₁]
      obtain ⟨hcap, hsch, hndm, hfreshm⟩ := (checkModule_ok_iff m acc).1 ⟨acc₁, hcm⟩
      have hlt : ¬ m.functions.length > maxNames := not_lt.2 hcap
      have hfns : checkFns m (m.functions.zip expectedFnExportNames) acc =
          Except.ok acc₁ := by
        unfold checkModule at hcm
        simpa [hlt] using hcm
      have hacc₁ := checkFns_ok_acc m _ acc acc₁ hfns
      have hkeys : acc₁.map Prod.fst =
          (m.functions.map (fun f => combinedName m f)).reverse ++ acc.map Prod.fst := by
        rw [hacc₁, List.map_append, List.map_reverse]
        congr 2
        have hcomp :
            (((m.functions.zip expectedFnExportNames).map
              (fun p => (combinedName m p.1, pathName m p.1))).map Prod.fst) =
              ((m.functions.zip expectedFnExportNames).map
                (fun p => combinedName m p.1)) := by
          rw [List.map_map]
          rfl
        rw [hcomp, zip_combined_map m hcap]
      have hfresh₁ : ∀ n, (∀ e ∈ acc₁, e.1 ≠ n) ↔
          (n ∉ m.functions.map (fun f => combinedName m f) ∧ ∀ e ∈ acc, e.1 ≠ n) := by
        intro n
        rw [fresh_iff_not_mem_keys, hkeys, fresh_iff_not_mem_keys]
        simp [List.mem_append]
      constructor
      · rintro ⟨hcs, hnd, hfr⟩
        refine ⟨fun m' hm' => ?_, ?_, fun n hn e he => ?_⟩
        · rcases List.mem_cons.1 hm' with hm' | hm'
          · rw [hm']
            exact ⟨hcap, hsch⟩
          · exact hcs m' hm'
        · rw [List.nodup_append]
          refine ⟨hndm, hnd, fun n hn hn' => ?_⟩
          exact ((hfresh₁ n).1 (hfr n hn')).1 hn
        · rcases List.mem_append.1 hn with hn | hn
          · rcases List.mem_map.1 hn with ⟨f, hf, hfe⟩
            exact hfe ▸ hfreshm f hf e he
          · exact ((hfresh₁ n).1 (hfr n hn)).2 e he
      · rintro ⟨hcs, hnd, hfr⟩
        rcases List.nodup_append.1 hnd with ⟨_, hndr, hdisj⟩
        refine ⟨fun m' hm' => hcs m' (List.mem_cons_of_mem _ hm'), hndr,
          fun n hn => ?_⟩
        rw [hfresh₁ n]
        exact ⟨fun hmem => hdisj hmem hn,
          fun e he => hfr n (List.mem_append_right _ hn) e he⟩

theorem checkFns_error_unexpected (m : Module) :
    ∀ (ps : List (Func × String)) (acc : List (String × String)) (p a e : String),
      checkFns m ps acc = Except.error (GenError.unexpectedExport p a e) →
      ∃ pre fp post, ps = pre ++ fp :: post ∧
        (∀ q ∈ pre, q.1.exportCode = q.2) ∧
        fp.1.exportCode ≠ fp.2 ∧
        p = pathName m fp.1 ∧ a = fp.1.exportCode ∧ e = fp.2
  | [], _, p, a, e, h => by simp [checkFns] at h
  | (f, expected) :: rest, acc, p, a, e, h => by
    by_cases hexp : f.exportCode = expected
    · simp only [checkFns, hexp, ne_eq, not_true_eq_false, ite_false] at h
      cases hl : lookupEntry acc (combinedName m f) with
      | some ex =>
        rw [hl] at h
        simp at h
      | none =>
        rw [hl] at h
        obtain ⟨pre, fp, post, hps, hpre, hne, hp, ha, he⟩ :=
          checkFns_error_unexpected m rest _ p a e h
        refine ⟨(f, expected) :: pre, fp, post, by rw [hps]; rfl,
          fun q hq => ?_, hne, hp, ha, he⟩
        rcases List.mem_cons.1 hq with hq | hq
        · rw [hq]
          exact hexp
        · exact hpre q hq
    · simp only [checkFns, hexp, ne_eq, not_false_eq_true, ite_true,
        Except.error.injEq, GenError.unexpectedExport.injEq] at h
      exact ⟨[], (f, expected), rest, rfl, by simp, hexp,
        h.1.symm, h.2.1.symm, h.2.2.symm⟩

theorem checkFns_error_dup (m : Module) :
    ∀ (ps : List (Func × String)) (acc : List (String × String)) (n p ex : String),
      checkFns m ps acc = Except.error (GenError.duplicateExport n p ex) →
      (∃ f, (∃ exp, (f, exp) ∈ ps) ∧ n = combinedName m f ∧ p = pathName m f) ∧
        ((n, ex) ∈ acc ∨
          ∃ f', (∃ exp', (f', exp') ∈ ps) ∧ n = combinedName m f' ∧ ex = pathName m f')
  | [], _, n, p, ex, h => by simp [checkFns] at h
  | (f, expected) :: rest, acc, n, p, ex, h => by
    by_cases hexp : f.exportCode = expected
    · simp only [checkFns, hexp, ne_eq, not_true_eq_false, ite_false] at h
      cases hl : lookupEntry acc (combinedName m f) with
      | some existing =>
        rw [hl] at h
        simp only [Except.error.injEq, GenError.duplicateExport.injEq] at h
        obtain ⟨hn, hp, hex⟩ := h
        refine ⟨⟨f, ⟨expected, List.mem_cons_self _ _⟩, hn.symm, hp.symm⟩, Or.inl ?_⟩
        rw [hn.symm, hex.symm] at *
        exact lookupEntry_mem hl
      | none =>
        rw [hl] at h
        obtain ⟨⟨g, ⟨exp, hg⟩, hn, hp⟩, hrest⟩ :=
          checkFns_error_dup m rest _ n p ex h
        refine ⟨⟨g, ⟨exp, List.mem_cons_of_mem _ hg⟩, hn, hp⟩, ?_⟩
        rcases hrest with hmem | ⟨f', ⟨exp', hf'⟩, hn', hex'⟩
        · rcases List.mem_cons.1 hmem with hmem | hmem
          · have h1 : n = combinedName m f := congrArg Prod.fst hmem
            have h2 : ex = pathName m f := congrArg Prod.snd hmem
            exact Or.inr ⟨f, ⟨expected, List.mem_cons_self _ _⟩, h1, h2⟩
          · exact Or.inl hmem
        · exact Or.inr ⟨f', ⟨exp', List.mem_cons_of_mem _ hf'⟩, hn', hex'⟩
    · simp [checkFns, hexp] at h

theorem checkFns_error_ne_tooMany (m : Module) :
    ∀ (ps : List (Func × String)) (acc : List (String × String)) (n : String)
      (c l : Nat), checkFns m ps acc ≠ Except.error (GenError.tooMany n c l)
  | [], _, n, c, l => by simp [checkFns]
  | (f, expected) :: rest, acc, n, c, l => by
    by_cases hexp : f.exportCode = expected
    · simp only [checkFns, hexp, ne_eq, not_true_eq_false, ite_false]
      cases hl : lookupEntry acc (combinedName m f) with
      | some existing => simp
      | none => exact checkFns_error_ne_tooMany m rest _ n c l
    · simp [checkFns, hexp]

/-- `(n, p)` is the combined export name and qualified path name of some
declared function of `ms`. -/
def entryOf (ms : List Module) (ent : String × String) : Prop :=
  ∃ m ∈ ms, ∃ f ∈ m.functions, ent = (combinedName m f, pathName m f)

theorem checkModules_error_tooMany :
    ∀ (ms : List Module) (acc : List (String × String)) (n : String) (c l : Nat),
      checkModules ms acc = Except.error (GenError.tooMany n c l) →
      ∃ m ∈ ms, n = m.name ∧ c = m.functions.length ∧ maxNames < c ∧ l = maxNames
  | [], _, n, c, l, h => by simp [checkModules] at h
  | m :: rest, acc, n, c, l, h => by
    cases hcm : checkModule m acc with
    | error err =>
      rw [checkModules, hcm] at h
      simp only [Except.error.injEq] at h
      unfold checkModule at hcm
      by_cases hcap : m.functions.length > maxNames
      · simp only [hcap, ite_true, Except.error.injEq] at hcm
        have hcm' := hcm.trans h
        simp only [GenError.tooMany.injEq] at hcm'
        exact ⟨m, List.mem_cons_self _ _, hcm'.1.symm, hcm'.2.1.symm,
          hcm'.2.1 ▸ hcap, hcm'.2.2.symm⟩
      · simp only [hcap, ite_false] at hcm
        rw [h] at hcm
        exact absurd hcm (checkFns_error_ne_tooMany m _ acc n c l)
    | ok acc₁ =>
      rw [checkModules, hcm] at h
      obtain ⟨m', hm', hrest⟩ := checkModules_error_tooMany rest acc₁ n c l h
      exact ⟨m', List.mem_cons_of_mem _ hm', hrest⟩

theorem checkModules_error_unexpected :
    ∀ (ms : List Module) (acc : List (String × String)) (p a e : String),
      checkModules ms acc = Except.error (GenError.unexpectedExport p a e) →
      ∃ m ∈ ms, ∃ pre fp post,
        m.functions.zip expectedFnExportNames = pre ++ fp :: post ∧
        (∀ q ∈ pre, q.1.exportCode = q.2) ∧
        fp.1.exportCode ≠ fp.2 ∧
        p = pathName m fp.1 ∧ a = fp.1.exportCode ∧ e = fp.2
  | [], _, p, a, e, h => by simp [checkModules] at h
  | m :: rest, acc, p, a, e, h => by
    cases hcm : checkModule m acc with
    | error err =>
      rw [checkModules, hcm] at h
      simp only [Except.error.injEq] at h
      unfold checkModule at hcm
      by_cases hcap : m.functions.length > maxNames
      · simp only [hcap, ite_true, Except.error.injEq] at hcm
        rw [← hcm] at h
        simp at h
      · simp only [hcap, ite_false] at hcm
        rw [h] at hcm
        obtain ⟨pre, fp, post, hzip, hpre, hne, hp, ha, he⟩ :=
          checkFns_error_unexpected m _ acc p a e hcm
        exact ⟨m, List.mem_cons_self _ _, pre, fp, post, hzip, hpre, hne, hp, ha, he⟩
    | ok acc₁ =>
      rw [checkModules, hcm] at h
      obtain ⟨m', hm', hrest⟩ := checkModules_error_unexpected rest acc₁ p a e h
      exact ⟨m', List.mem_cons_of_mem _ hm', hrest⟩

theorem checkModules_error_dup :
    ∀ (ms : List Module) (acc : List (String × String)) (n p ex : String),
      checkModules ms acc = Except.error (GenError.duplicateExport n p ex) →
      entryOf ms (n, p) ∧ (entryOf ms (n, ex) ∨ (n, ex) ∈ acc)
  | [], _, n, p, ex, h => by simp [checkModules] at h
  | m :: rest, acc, n, p, ex, h => by
    have hzmem : ∀ (q : Func × String),
        q ∈ m.functions.zip expectedFnExportNames → q.1 ∈ m.functions := by
      intro q hq
      exact (List.of_mem_zip hq).1
    cases hcm : checkModule m acc with
    | error err =>
      rw [checkModules, hcm] at h
      simp only [Except.error.injEq] at h
      unfold checkModule at hcm
      by_cases hcap : m.functions.length > maxNames
      · simp only [hcap, ite_true, Except.error.injEq] at hcm
        rw [← hcm] at h
        simp at h
      · simp only [hcap, ite_false] at hcm
        rw [h] at hcm
        obtain ⟨⟨f, ⟨exp, hf⟩, hn, hp⟩, hsec⟩ := checkFns_error_dup m _ acc n p ex hcm
        have hfmem : f ∈ m.functions := hzmem (f, exp) hf
        refine ⟨⟨m, List.mem_cons_self _ _, f, hfmem, by rw [hn, hp]⟩, ?_⟩
        rcases hsec with hmem | ⟨f', ⟨exp', hf'⟩, hn', hex'⟩
        · exact Or.inr hmem
        · exact Or.inl ⟨m, List.mem_cons_self _ _, f', hzmem (f', exp') hf',
            by rw [hn', hex']⟩
    | ok acc₁ =>
      rw [checkModules, hcm] at h
      obtain ⟨hfirst, hsec⟩ := checkModules_error_dup rest acc₁ n p ex h
      obtain ⟨hcap, _, _, _⟩ := (checkModule_ok_iff m acc).1 ⟨acc₁, hcm⟩
      have hlt : ¬ m.functions.length > maxNames := not_lt.2 hcap
      have hfns : checkFns m (m.functions.zip expectedFnExportNames) acc =
          Except.ok acc₁ := by
        unfold checkModule at hcm
        simpa [hlt] using hcm
      have hacc₁ := checkFns_ok_acc m _ acc acc₁ hfns
      have hlift : ∀ ent, entryOf rest ent → entryOf (m :: rest) ent := by
        rintro ent ⟨m', hm', f', hf', hent⟩
        exact ⟨m', List.mem_cons_of_mem _ hm', f', hf', hent⟩
      refine ⟨hlift _ hfirst, ?_⟩
      rcases hsec with hent | hmem
      · exact Or.inl (hlift _ hent)
      · rw [hacc₁] at hmem
        rcases List.mem_append.1 hmem with hmem | hmem
        · rw [List.mem_reverse] at hmem
          rcases List.mem_map.1 hmem with ⟨q, hq, hqe⟩
          exact Or.inl ⟨m, List.mem_cons_self _ _, q.1, hzmem q hq, hqe.symm⟩
        · exact Or.inr hmem

theorem dot_split_inj :
    ∀ (xs us ys vs : List Char), '.' ∉ ys → '.' ∉ vs →
      xs ++ '.' :: ys = us ++ '.' :: vs → xs = us ∧ ys = vs
  | [], [], ys, vs, _, _, h => by
    simp at h
    exact ⟨rfl, h⟩
  | [], u :: us, ys, vs, hy, _, h => by
    simp only [List.nil_append, List.cons_append, List.cons.injEq] at h
    exact absurd (h.2 ▸ List.mem_append_right us (List.mem_cons_self '.' vs)) hy
  | x :: xs, [], ys, vs, _, hv, h => by
    simp only [List.nil_append, List.cons_append, List.cons.injEq] at h
    exact absurd (h.2.symm ▸ List.mem_append_right xs (List.mem_cons_self '.' ys)) hv
  | x :: xs, u :: us, ys, vs, hy, hv, h => by
    simp only [List.cons_append, List.cons.injEq] at h
    obtain ⟨h1, h2⟩ := dot_split_inj xs us ys vs hy hv h.2
    exact ⟨by rw [h.1, h1], h2⟩

theorem string_dot_inj (a b c d : String) (hb : '.' ∉ b.data) (hd : '.' ∉ d.data)
    (h : a ++ "." ++ b = c ++ "." ++ d) : a = c ∧ b = d := by
  have hdata : a.data ++ '.' :: b.data = c.data ++ '.' :: d.data := by
    have hq := congrArg String.data h
    simpa [String.data_append] using hq
  obtain ⟨h1, h2⟩ := dot_split_inj a.data c.data b.data d.data hb hd hdata
  exact ⟨String.ext h1, String.ext h2⟩

theorem dot_not_mem_expChars : '.' ∉ expChars := by decide

theorem expected_dot_free : ∀ s ∈ expectedFnExportNames, '.' ∉ s.data := by
  intro s hs
  rcases List.mem_append.1 hs with hs | hs
  · rcases List.mem_map.1 hs with ⟨c, hc, he⟩
    rw [← he]
    intro hmem
    simp at hmem
    exact dot_not_mem_expChars (hmem ▸ hc)
  · rcases List.mem_flatMap.1 hs with ⟨a, ha, hs⟩
    rcases List.mem_map.1 hs with ⟨b, hb, he⟩
    rw [← he]
    intro hmem
    simp at hmem
    rcases hmem with hmem | hmem
    · exact dot_not_mem_expChars (hmem ▸ ha)
    · exact dot_not_mem_expChars (hmem ▸ hb)

theorem combinedNames_eq_map_pairs (ms : List Module) :
    combinedNames ms = (exportPairs ms).map (fun pr => pr.1 ++ "." ++ pr.2) := by
  simp only [combinedNames, exportPairs, List.map_flatMap, List.map_map]
  rfl

theorem mem_exportPairs {ms : List Module} {pr : String × String}
    (h : pr ∈ exportPairs ms) :
    ∃ m ∈ ms, ∃ f ∈ m.functions, pr = (m.exportCode, f.exportCode) := by
  rcases List.mem_flatMap.1 h with ⟨m, hm, hpr⟩
  rcases List.mem_map.1 hpr with ⟨f, hf, he⟩
  exact ⟨m, hm, f, hf, he.symm⟩

theorem scheme_snd_dot_free {ms : List Module}
    (hsch : ∀ m ∈ ms, schemeOk m) :
    ∀ pr ∈ exportPairs ms, '.' ∉ pr.2.data := by
  intro pr hpr
  obtain ⟨m, hm, f, hf, he⟩ := mem_exportPairs hpr
  have hexp : f.exportCode ∈ expectedFnExportNames := by
    have hmem : f.exportCode ∈ fnExports m :=
      List.mem_map_of_mem (fun f => f.exportCode) hf
    rw [hsch m hm] at hmem
    exact List.take_subset _ _ hmem
  rw [he]
  exact expected_dot_free _ hexp

theorem pairs_nodup_combined {ms : List Module}
    (hsch : ∀ m ∈ ms, schemeOk m)
    (hnd : (exportPairs ms).Nodup) :
    (combinedNames ms).Nodup := by
  rw [combinedNames_eq_map_pairs]
  refine List.Nodup.map_on ?_ hnd
  intro x hx y hy hxy
  obtain ⟨h1, h2⟩ := string_dot_inj x.1 x.2 y.1 y.2
    (scheme_snd_dot_free hsch x hx) (scheme_snd_dot_free hsch y hy) hxy
  exact Prod.ext h1 h2

theorem combined_nodup_pairs {ms : List Module}
    (hnd : (combinedNames ms).Nodup) : (exportPairs ms).Nodup := by
  rw [combinedNames_eq_map_pairs] at hnd
  exact List.Nodup.of_map _ hnd

/-- Success characterization of `generate`: validation succeeds exactly when
every module respects the capacity limit and the deterministic export-name
scheme, and the combined `<module export>.<function export>` names are
pairwise distinct across the whole registry. -/
theorem generate_ok_iff (root : Root) :
    generate root = Except.ok () ↔
      ((∀ m ∈ root.modules, capacityOk m ∧ schemeOk m) ∧
        (combinedNames root.modules).Nodup) := by
  have h := checkModules_ok_iff root.modules []
  simp only [List.not_mem_nil, ne_eq, false_implies, implies_true, and_true] at h
  unfold generate
  cases hc : checkModules root.modules [] with
  | error err =>
    simp only [reduceCtorEq, false_iff]
    intro hcond
    rcases h.2 ⟨hcond.1, hcond.2⟩ with ⟨acc', hacc'⟩
    rw [hc] at hacc'
    simp at hacc'
  | ok acc₁ =>
    simp only [true_iff]
    have := h.1 ⟨acc₁, hc⟩
    exact ⟨this.1, this.2⟩

theorem generate_error (root : Root) (err : GenError) :
    generate root = Except.error err ↔
      checkModules root.modules [] = Except.error err := by
  unfold generate
  cases hc : checkModules root.modules [] with
  | error e => simp
  | ok a => simp

end Gen

namespace GenWit

/-- Concrete registry fragments used to instantiate the registry theorems. -/
def fU : Gen.Func :=
  { exportCode := "_", name := "f_u", args := [], ret := "RawVal", docs := none }

def fZero : Gen.Func :=
  { exportCode := "0", name := "f_zero", args := [], ret := "RawVal", docs := none }

def fDev : Gen.Func :=
  { exportCode := "9", name := "f_dev", args := [], ret := "RawVal", docs := none }

def mOk : Gen.Module :=
  { name := "ma", exportCode := "x", functions := [fU, fZero] }

def mDev : Gen.Module :=
  { name := "mdev", exportCode := "y", functions := [fU, fDev] }

def mCol : Gen.Module :=
  { name := "mc", exportCode := "x", functions := [fU] }

def rootDev : Gen.Root := { modules := [mDev] }

def rootCol : Gen.Root := { modules := [mOk, mCol] }

def rootOk : Gen.Root := { modules := [mOk] }

def mBig : Gen.Module :=
  { name := "mbig", exportCode := "z", functions := List.replicate 4033 fU }

def rootBig : Gen.Root := { modules := [mBig] }

end GenWit

/-- C3: within each module the declared function export codes must match,
position by position, the deterministic enumeration (`_`, 0-9, a-z, A-Z,
then two-character products); any module whose code sequence deviates from
the enumeration prefix makes registry construction fail, and whenever the
scheme-mismatch error is produced it is located at the first function (of
its module) whose code deviates and names the expected code, the actual
code, and that function's qualified `module.function` name. -/
theorem registry_scheme_violation_rejected :
    (∀ root : Gen.Root,
      (∃ m ∈ root.modules, ¬ Gen.schemeOk m) → Gen.generate root ≠ Except.ok ()) ∧
    (∀ (root : Gen.Root) (p a e : String),
      Gen.generate root = Except.error (Gen.GenError.unexpectedExport p a e) →
      ∃ m ∈ root.modules, ∃ pre fp post,
        m.functions.zip Gen.expectedFnExportNames = pre ++ fp :: post ∧
        (∀ q ∈ pre, q.1.exportCode = q.2) ∧
        fp.1.exportCode ≠ fp.2 ∧
        p = Gen.pathName m fp.1 ∧ a = fp.1.exportCode ∧ e = fp.2) := by
  constructor
  · rintro root ⟨m, hm, hdev⟩ hok
    exact hdev (((Gen.generate_ok_iff root).1 hok).1 m hm).2
  · intro root p a e h
    exact Gen.checkModules_error_unexpected root.modules [] p a e
      ((Gen.generate_error root _).1 h)

theorem registry_scheme_violation_rejected_witness :
    Gen.generate GenWit.rootDev ≠ Except.ok () :=
  registry_scheme_violation_rejected.1 GenWit.rootDev (by decide)

/-- C4: a collision on the `(module export code, function export code)` pair
makes registry construction fail; the duplicate-export error names the
combined code together with the qualified `module.function` names of two
declared functions carrying that combined code; and absent any collision
(with capacity and scheme validation passing) construction succeeds. -/
theorem registry_duplicate_export_rejected :
    (∀ root : Gen.Root,
      ¬ (Gen.exportPairs root.modules).Nodup → Gen.generate root ≠ Except.ok ()) ∧
    (∀ (root : Gen.Root) (n p ex : String),
      Gen.generate root = Except.error (Gen.GenError.duplicateExport n p ex) →
      Gen.entryOf root.modules (n, p) ∧ Gen.entryOf root.modules (n, ex)) ∧
    (∀ root : Gen.Root,
      (∀ m ∈ root.modules, Gen.capacityOk m ∧ Gen.schemeOk m) →
      (Gen.exportPairs root.modules).Nodup → Gen.generate root = Except.ok ()) := by
  refine ⟨fun root hnd hok => ?_, fun root n p ex h => ?_, fun root hcs hnd => ?_⟩
  · exact hnd (Gen.combined_nodup_pairs ((Gen.generate_ok_iff root).1 hok).2)
  · obtain ⟨h1, h2⟩ := Gen.checkModules_error_dup root.modules [] n p ex
      ((Gen.generate_error root _).1 h)
    rcases h2 with h2 | h2
    · exact ⟨h1, h2⟩
    · simp at h2
  · exact (Gen.generate_ok_iff root).2
      ⟨hcs, Gen.pairs_nodup_combined (fun m hm => (hcs m hm).2) hnd⟩

theorem registry_duplicate_export_rejected_witness :
    Gen.generate GenWit.rootCol ≠ Except.ok () ∧
      Gen.generate GenWit.rootOk = Except.ok () :=
  ⟨registry_duplicate_export_rejected.1 GenWit.rootCol (by decide),
    (registry_duplicate_export_rejected.2.2) GenWit.rootOk (by decide) (by decide)⟩

/-- C5: the per-module capacity limit is 4032 (63 one-character codes plus
63 × 63 two-character codes); a module with strictly more than 4032
functions makes construction fail, the capacity error names the module, its
actual function count and the limit, and a registry whose modules all stay
within the limit never produces the capacity error. -/
theorem registry_capacity_limit_enforced :
    Gen.maxNames = 4032 ∧
    (∀ root : Gen.Root,
      (∃ m ∈ root.modules, 4032 < m.functions.length) →
        Gen.generate root ≠ Except.ok ()) ∧
    (∀ (root : Gen.Root) (n : String) (c l : Nat),
      Gen.generate root = Except.error (Gen.GenError.tooMany n c l) →
      ∃ m ∈ root.modules, n = m.name ∧ c = m.functions.length ∧ 4032 < c ∧ l = 4032) ∧
    (∀ root : Gen.Root, (∀ m ∈ root.modules, m.functions.length ≤ 4032) →
      ∀ (n : String) (c l : Nat),
        Gen.generate root ≠ Except.error (Gen.GenError.tooMany n c l)) := by
  have hmax : Gen.maxNames = 4032 := by decide
  refine ⟨hmax, fun root hex hok => ?_, fun root n c l h => ?_, fun root hcs n c l h => ?_⟩
  · rcases hex with ⟨m, hm, hlen⟩
    have hcap := (((Gen.generate_ok_iff root).1 hok).1 m hm).1
    rw [Gen.capacityOk, hmax] at hcap
    exact absurd hlen (not_lt.2 hcap)
  · obtain ⟨m, hm, h1, h2, h3, h4⟩ := Gen.checkModules_error_tooMany root.modules [] n c l
      ((Gen.generate_error root _).1 h)
    exact ⟨m, hm, h1, h2, hmax ▸ h3, hmax ▸ h4⟩
  · obtain ⟨m, hm, _, h2, h3, _⟩ := Gen.checkModules_error_tooMany root.modules [] n c l
      ((Gen.generate_error root _).1 h)
    rw [hmax] at h3
    exact absurd (h2 ▸ h3) (not_lt.2 (hcs m hm))

theorem registry_capacity_limit_enforced_witness :
    Gen.generate GenWit.rootBig ≠ Except.ok () :=
  registry_capacity_limit_enforced.2.1 GenWit.rootBig
    ⟨GenWit.mBig, by simp [GenWit.rootBig],
      by rw [show GenWit.mBig.functions = List.replicate 4033 GenWit.fU from rfl,
        List.length_replicate]; norm_num⟩

/-- C9: full characterization of registry validation: an input is accepted
exactly when every module has at most 4032 functions, every module's export
codes are the deterministic enumeration prefix of its function count, and
the combined `<module export>.<function export>` strings are pairwise
distinct; no condition whatsoever is imposed on the module export code
itself (the right-hand side constrains `m.exportCode` only through the
combined names). -/
theorem registry_validation_characterization (root : Gen.Root) :
    Gen.generate root = Except.ok () ↔
      ((∀ m ∈ root.modules,
          m.functions.length ≤ Gen.maxNames ∧
            Gen.fnExports m = Gen.expectedFnExportNames.take m.functions.length) ∧
        (Gen.combinedNames root.modules).Nodup) :=
  Gen.generate_ok_iff root

namespace EnvDecl

/-- Types appearing in the declared host-function table of
`stellar-contract-env-common/src/env.rs`: the compact-value type `RawVal`
and the raw fixed-width integers `u64` and `i64`. -/
inductive HostTy where
  | RawVal
  | u64
  | i64
deriving DecidableEq, Repr

/-- One `{ $fn_str, fn $fn_id(args) -> ret }` block of the x-macro. -/
structure HostFn where
  exportName : String
  name : String
  args : List (String × HostTy)
  ret : HostTy
deriving DecidableEq, Repr

/-- One `mod $mod_id $mod_str { ... }` block of the x-macro. -/
structure HostMod where
  name : String
  exportName : String
  functions : List HostFn
deriving DecidableEq, Repr

/-- `fn obj_cmp(a:RawVal, b:RawVal) -> i64` in `mod context "x"`. -/
def objCmpFn : HostFn :=
  { exportName := "$1", name := "obj_cmp",
    args := [("a", HostTy.RawVal), ("b", HostTy.RawVal)], ret := HostTy.i64 }

/-- `mod context "x"` of the x-macro table. -/
def contextMod : HostMod :=
  { name := "context", exportName := "x", functions :=
    [ { exportName := "$_", name := "log_value",
        args := [("v", HostTy.RawVal)], ret := HostTy.RawVal },
      { exportName := "$0", name := "get_last_operation_result",
        args := [], ret := HostTy.RawVal },
      objCmpFn ] }

/-- `mod u64 "u"` of the x-macro table. -/
def u64Mod : HostMod :=
  { name := "u64", exportName := "u", functions :=
    [ { exportName := "$_", name := "obj_from_u64",
        args := [("v", HostTy.u64)], ret := HostTy.RawVal },
      { exportName := "$0", name := "obj_to_u64",
        args := [("v", HostTy.RawVal)], ret := HostTy.u64 } ] }

/-- `mod i64 "i"` of the x-macro table. -/
def i64Mod : HostMod :=
  { name := "i64", exportName := "i", functions :=
    [ { exportName := "$_", name := "obj_from_i64",
        args := [("v", HostTy.i64)], ret := HostTy.RawVal },
      { exportName := "$0", name := "obj_to_i64",
        args := [("v", HostTy.RawVal)], ret := HostTy.i64 } ] }

/-- `mod map "m"` of the x-macro table. -/
def mapMod : HostMod :=
  { name := "map", exportName := "m", functions :=
    [ { exportName := "$_", name := "map_new", args := [], ret := HostTy.RawVal },
      { exportName := "$0", name := "map_put",
        args := [("m", HostTy.RawVal), ("k", HostTy.RawVal), ("v", HostTy.RawVal)],
        ret := HostTy.RawVal },
      { exportName := "$1", name := "map_get",
        args := [("m", HostTy.RawVal), ("k", HostTy.RawVal)], ret := HostTy.RawVal },
      { exportName := "$2", name := "map_del",
        args := [("m", HostTy.RawVal), ("k", HostTy.RawVal)], ret := HostTy.RawVal },
      { exportName := "$3", name := "map_len",
        args := [("m", HostTy.RawVal)], ret := HostTy.RawVal },
      { exportName := "$4", name := "map_keys",
        args := [("m", HostTy.RawVal)], ret := HostTy.RawVal },
      { exportName := "$5", name := "map_has",
        args := [("m", HostTy.RawVal), ("k", HostTy.RawVal)], ret := HostTy.RawVal } ] }

/-- `mod vec "v"` of the x-macro table. -/
def vecMod : HostMod :=
  { name := "vec", exportName := "v", functions :=
    [ { exportName := "$_", name := "vec_new", args := [], ret := HostTy.RawVal },
      { exportName := "$0", name := "vec_put",
        args := [("v", HostTy.RawVal), ("i", HostTy.RawVal), ("x", HostTy.RawVal)],
        ret := HostTy.RawVal },
      { exportName := "$1", name := "vec_get",
        args := [("v", HostTy.RawVal), ("i", HostTy.RawVal)], ret := HostTy.RawVal },
      { exportName := "$2", name := "vec_del",
        args := [("v", HostTy.RawVal), ("i", HostTy.RawVal)], ret := HostTy.RawVal },
      { exportName := "$3", name := "vec_len",
        args := [("v", HostTy.RawVal)], ret := HostTy.RawVal },
      { exportName := "$4", name := "vec_push",
        args := [("v", HostTy.RawVal), ("x", HostTy.RawVal)], ret := HostTy.RawVal },
      { exportName := "$5", name := "vec_pop",
        args := [("v", HostTy.RawVal)], ret := HostTy.RawVal },
      { exportName := "$6", name := "vec_take",
        args := [("v", HostTy.RawVal), ("n", HostTy.RawVal)], ret := HostTy.RawVal },
      { exportName := "$7", name := "vec_drop",
        args := [("v", HostTy.RawVal), ("n", HostTy.RawVal)], ret := HostTy.RawVal },
      { exportName := "$8", name := "vec_front",
        args := [("v", HostTy.RawVal)], ret := HostTy.RawVal },
      { exportName := "$9", name := "vec_back",
        args := [("v", HostTy.RawVal)], ret := HostTy.RawVal },
      { exportName := "$A", name := "vec_insert",
        args := [("v", HostTy.RawVal), ("i", HostTy.RawVal), ("x", HostTy.RawVal)],
        ret := HostTy.RawVal },
      { exportName := "$B", name := "vec_append",
        args := [("v1", HostTy.RawVal), ("v2", HostTy.RawVal)], ret := HostTy.RawVal } ] }

/-- `mod ledger "l"` of the x-macro table. -/
def ledgerMod : HostMod :=
  { name := "ledger", exportName := "l", functions :=
    [ { exportName := "$_", name := "get_current_ledger_num",
        args := [], ret := HostTy.RawVal },
      { exportName := "$0", name := "get_current_ledger_close_time",
        args := [], ret := HostTy.RawVal },
      { exportName := "$1", name := "pay",
        args := [("src", HostTy.RawVal), ("dst", HostTy.RawVal),
          ("asset", HostTy.RawVal), ("amt", HostTy.RawVal)], ret := HostTy.RawVal },
      { exportName := "$2", name := "put_contract_data",
        args := [("k", HostTy.RawVal), ("v", HostTy.RawVal)], ret := HostTy.RawVal },
      { exportName := "$3", name := "has_contract_data",
        args := [("k", HostTy.RawVal)], ret := HostTy.RawVal },
      { exportName := "$4", name := "get_contract_data",
        args := [("k", HostTy.RawVal)], ret := HostTy.RawVal },
      { exportName := "$5", name := "del_contract_data",
        args := [("k", HostTy.RawVal)], ret := HostTy.RawVal },
      { exportName := "$6", name := "account_balance",
        args := [("acct", HostTy.RawVal)], ret := HostTy.RawVal },
      { exportName := "$7", name := "account_trust_line",
        args := [("acct", HostTy.RawVal), ("asset", HostTy.RawVal)],
        ret := HostTy.RawVal },
      { exportName := "$8", name := "trust_line_balance",
        args := [("tl", HostTy.RawVal)], ret := HostTy.RawVal } ] }

/-- `mod call "c"` of the x-macro table. -/
def callMod : HostMod :=
  { name := "call", exportName := "c", functions :=
    [ { exportName := "$_", name := "call0",
        args := [("contract", HostTy.RawVal), ("func", HostTy.RawVal)],
        ret := HostTy.RawVal },
      { exportName := "$0", name := "call1",
        args := [("contract", HostTy.RawVal), ("func", HostTy.RawVal),
          ("a", HostTy.RawVal)], ret := HostTy.RawVal },
      { exportName := "$1", name := "call2",
        args := [("contract", HostTy.RawVal), ("func", HostTy.RawVal),
          ("a", HostTy.RawVal), ("b", HostTy.RawVal)], ret := HostTy.RawVal },
      { exportName := "$2", name := "call3",
        args := [("contract", HostTy.RawVal), ("func", HostTy.RawVal),
          ("a", HostTy.RawVal), ("b", HostTy.RawVal), ("c", HostTy.RawVal)],
        ret := HostTy.RawVal },
      { exportName := "$3", name := "call4",
        args := [("contract", HostTy.RawVal), ("func", HostTy.RawVal),
          ("a", HostTy.RawVal), ("b", HostTy.RawVal), ("c", HostTy.RawVal),
          ("d", HostTy.RawVal)], ret := HostTy.RawVal } ] }

/-- `mod bigint "b"` of the x-macro table. -/
def bigintMod : HostMod :=
  { name := "bigint", exportName := "b", functions :=
    [ { exportName := "$_", name := "bigint_from_u64",
        args := [("x", HostTy.RawVal)], ret := HostTy.RawVal },
      { exportName := "$0", name := "bigint_add",
        args := [("x", HostTy.RawVal), ("y", HostTy.RawVal)], ret := HostTy.RawVal },
      { exportName := "$1", name := "bigint_sub",
        args := [("x", HostTy.RawVal), ("y", HostTy.RawVal)], ret := HostTy.RawVal },
      { exportName := "$2", name := "bigint_mul",
        args := [("x", HostTy.RawVal), ("y", HostTy.RawVal)], ret := HostTy.RawVal },
      { exportName := "$3", name := "bigint_div",
        args := [("x", HostTy.RawVal), ("y", HostTy.RawVal)], ret := HostTy.RawVal },
      { exportName := "$4", name := "bigint_rem",
        args := [("x", HostTy.RawVal), ("y", HostTy.RawVal)], ret := HostTy.RawVal },
      { exportName := "$5", name := "bigint_and",
        args := [("x", HostTy.RawVal), ("y", HostTy.RawVal)], ret := HostTy.RawVal },
      { exportName := "$6", name := "bigint_or",
        args := [("x", HostTy.RawVal), ("y", HostTy.RawVal)], ret := HostTy.RawVal },
      { exportName := "$7", name := "bigint_xor",
        args := [("x", HostTy.RawVal), ("y", HostTy.RawVal)], ret := HostTy.RawVal },
      { exportName := "$8", name := "bigint_shl",
        args := [("x", HostTy.RawVal), ("y", HostTy.RawVal)], ret := HostTy.RawVal },
      { exportName := "$9", name := "bigint_shr",
        args := [("x", HostTy.RawVal), ("y", HostTy.RawVal)], ret := HostTy.RawVal },
      { exportName := "$A", name := "bigint_cmp",
        args := [("x", HostTy.RawVal), ("y", HostTy.RawVal)], ret := HostTy.RawVal },
      { exportName := "$B", name := "bigint_is_zero",
        args := [("x", HostTy.RawVal)], ret := HostTy.RawVal },
      { exportName := "$C", name := "bigint_neg",
        args := [("x", HostTy.RawVal)], ret := HostTy.RawVal },
      { exportName := "$D", name := "bigint_not",
        args := [("x", HostTy.RawVal)], ret := HostTy.RawVal },
      { exportName := "$E", name := "bigint_gcd",
        args := [("x", HostTy.RawVal)], ret := HostTy.RawVal },
      { exportName := "$F", name := "bigint_lcm",
        args := [("x", HostTy.RawVal), ("y", HostTy.RawVal)], ret := HostTy.RawVal },
      { exportName := "$G", name := "bigint_pow",
        args := [("x", HostTy.RawVal), ("y", HostTy.RawVal)], ret := HostTy.RawVal },
      { exportName := "$H", name := "bigint_pow_mod",
        args := [("p", HostTy.RawVal), ("q", HostTy.RawVal), ("m", HostTy.RawVal)],
        ret := HostTy.RawVal },
      { exportName := "$I", name := "bigint_sqrt",
        args := [("x", HostTy.RawVal)], ret := HostTy.RawVal },
      { exportName := "$J", name := "bigint_bits",
        args := [("x", HostTy.RawVal)], ret := HostTy.RawVal },
      { exportName := "$K", name := "bigint_to_u64",
        args := [("x", HostTy.RawVal)], ret := HostTy.u64 },
      { exportName := "$L", name := "bigint_to_i64",
        args := [("x", HostTy.RawVal)], ret := HostTy.i64 },
      { exportName := "$M", name := "bigint_from_i64",
        args := [("x", HostTy.i64)], ret := HostTy.RawVal } ] }

/-- The full declared host-function table of the x-macro, in declaration
order. -/
def envModules : List HostMod :=
  [contextMod, u64Mod, i64Mod, mapMod, vecMod, ledgerMod, callMod, bigintMod]

/-- The alphabet actually realized by the declared export-name suffixes:
`_`, digits, then UPPERCASE letters (before lowercase). -/
def altExpChars : List Char :=
  ("_0123456789ABCDEFGHIJKLMNOPQRSTUVWXYZabcdefghijklmnopqrstuvwxyz").toList

/-- The deterministic enumeration over `altExpChars`, single characters
first, then cartesian products. -/
def altExpectedNames : List String :=
  (altExpChars.map (fun c => String.mk [c])) ++
    (altExpChars.flatMap (fun a => altExpChars.map (fun b => String.mk [a, b])))

/-- The functions of the table whose declared signatures use a raw
fixed-width integer type, identified by `(module name, function name)`. -/
def rawIntegerFns : List (String × String) :=
  [("context", "obj_cmp"),
    ("u64", "obj_from_u64"), ("u64", "obj_to_u64"),
    ("i64", "obj_from_i64"), ("i64", "obj_to_i64"),
    ("bigint", "bigint_to_u64"), ("bigint", "bigint_to_i64"),
    ("bigint", "bigint_from_i64")]

end EnvDecl

/-- C6 counterexample: in the declared host-function table, the function
export codes are NOT drawn from the fixed 63-character alphabet and do NOT
follow the deterministic enumeration (`_`, `0`, `1`, ...): every code
carries a `$` prefix (e.g. the first code is `$_`, not `_`), and `$` is not
in the alphabet. -/
theorem env_table_breaks_claimed_enumeration :
    (¬ ∀ m ∈ EnvDecl.envModules,
      (m.functions.map (fun f => f.exportName)) =
        Gen.expectedFnExportNames.take m.functions.length) ∧
    (∃ m ∈ EnvDecl.envModules, ∃ f ∈ m.functions,
      ∃ c ∈ f.exportName.toList, c ∉ Gen.expChars) := by
  decide

/-- C6 (amended): in the declared host-function table, every function export
code is a `$` followed by a code over the fixed alphabet, and within each
module the sequence of suffixes equals the deterministic enumeration over
the alphabet reordered as `_`, 0-9, A-Z, a-z (uppercase before lowercase):
the module's code list is exactly the `$`-prefixed enumeration prefix of its
function count. -/
theorem env_table_export_scheme :
    ∀ m ∈ EnvDecl.envModules,
      (m.functions.map (fun f => f.exportName)) =
        (EnvDecl.altExpectedNames.take m.functions.length).map
          (fun s => "$" ++ s) := by
  decide

theorem env_table_export_scheme_witness :
    EnvDecl.vecMod ∈ EnvDecl.envModules ∧
      (EnvDecl.vecMod.functions.map (fun f => f.exportName)) =
        (EnvDecl.altExpectedNames.take EnvDecl.vecMod.functions.length).map
          (fun s => "$" ++ s) :=
  ⟨by decide, env_table_export_scheme EnvDecl.vecMod (by decide)⟩

/-- C8 counterexample: `context.obj_cmp` has return type `i64`, yet it is
not a big-integer conversion (it does not belong to the `bigint` module,
and is a comparison, not a conversion); so it is false that every function
using a raw fixed-width integer type is a bigint conversion. -/
theorem env_table_raw_integer_outside_bigint :
    ∃ m ∈ EnvDecl.envModules, ∃ f ∈ m.functions,
      (f.ret = EnvDecl.HostTy.i64 ∨ f.ret = EnvDecl.HostTy.u64) ∧
        m.name ≠ "bigint" ∧ f.name = "obj_cmp" := by
  decide

/-- C8 (amended): in the declared table every argument and return type is
the compact-value type `RawVal`, except exactly these functions, which use
a raw `u64` or `i64` somewhere in their signature: the comparison
`context.obj_cmp` (returns `i64`), the integer object conversions of the
`u64` and `i64` modules, and the bigint conversions `bigint_to_u64`,
`bigint_to_i64`, `bigint_from_i64`. -/
theorem env_table_types_raw_val_except :
    ∀ m ∈ EnvDecl.envModules, ∀ f ∈ m.functions,
      ((f.ret ≠ EnvDecl.HostTy.RawVal ∨ ∃ a ∈ f.args, a.2 ≠ EnvDecl.HostTy.RawVal) ↔
        (m.name, f.name) ∈ EnvDecl.rawIntegerFns) := by
  decide

namespace Events

/-- Compact values as they appear in the event-journal test vector of
`soroban-env-host/src/test/event.rs`: immediate `U32`/`I32` scalars and
object handles to host vectors (`Object(Vec(#n))`) and host byte arrays
(`Object(Bytes(#n))`). -/
inductive RawVal where
  | U32 (n : Nat)
  | I32 (n : Int)
  | ObjVec (handle : Nat)
  | ObjBytes (handle : Nat)
deriving DecidableEq, Repr

/-- `ContractEventType` of the XDR, with its numeric encoding
`System = 0`, `Contract = 1`, `Diagnostic = 2`. -/
inductive ContractEventType where
  | System
  | Contract
  | Diagnostic
deriving DecidableEq, Repr

/-- Numeric value of the event type as interpolated into the rollback
diagnostic (the test shows `Val(I32(0))` for a `System` event). -/
def ContractEventType.toI32 : ContractEventType → Int
  | ContractEventType.System => 0
  | ContractEventType.Contract => 1
  | ContractEventType.Diagnostic => 2

/-- A contract event: contract id (a 32-byte hash, modelled as its numeric
digest), event type, topics (a compact value holding a handle to a host
vector) and data. -/
structure ContractEvent where
  contract_id : Option Nat
  type_ : ContractEventType
  topics : RawVal
  data : RawVal
deriving DecidableEq, Repr

/-- A debug event: optional message and compact-value arguments. -/
structure DebugEvent where
  msg : Option String
  args : List RawVal
deriving DecidableEq, Repr

/-- `HostEvent`: either a contract event or a debug event. -/
inductive HostEvent where
  | Contract (ce : ContractEvent)
  | Debug (d : DebugEvent)
deriving DecidableEq, Repr

/-- Whether a journal entry is a contract event. -/
def isContractEvent : HostEvent → Bool
  | HostEvent.Contract _ => true
  | HostEvent.Debug _ => false

def voidEvent : HostEvent := HostEvent.Debug { msg := none, args := [] }

/-- Message of the per-event rollback diagnostic, from the test vector. -/
def rolledBackEventMsg : String :=
  ("rolled-back contract event: type \x7b\x7d, id \x7b\x7d, topics \x7b\x7d, data \x7b\x7d")

/-- Message of the final rollback summary, from the test vector. -/
def rolledBackCountMsg : String :=
  ("\x7b\x7d contract events rolled back. Rollback start pos = \x7b\x7d")

/-- The debug event summarizing one rolled-back contract event: its type
(as an `I32`), its contract id converted to a freshly allocated host bytes
object, its topics handle, and its data. -/
def summarizeRolledBack (ce : ContractEvent) (idHandle : Nat) : DebugEvent :=
  { msg := some rolledBackEventMsg,
    args := [RawVal.I32 ce.type_.toI32, RawVal.ObjBytes idHandle,
      ce.topics, ce.data] }

/-- Modelled from the spec: the `Events::rollback` implementation
(`soroban-env-host/src/events.rs`) is not under `src/`; only its unit test
`test_event_rollback` (`src/soroban-env-host/src/test/event.rs`) is, and
the expected output pinned by that test disagrees with the spec's §4.5
prose (the test keeps post-cursor debug events, replaces post-cursor
contract events in place, performs no truncation, and counts only contract
events). The test, being repository code, is taken as authoritative; this
walk over the post-cursor suffix reconstructs it: debug events are kept,
each contract event is replaced by its rollback diagnostic (allocating one
bytes-object handle for its contract id), and the number of replaced
contract events is returned. -/
def rollbackAux : List HostEvent → Nat → (List HostEvent × Nat)
  | [], _ => ([], 0)
  | HostEvent.Debug d :: rest, h =>
    let r := rollbackAux rest h
    (HostEvent.Debug d :: r.1, r.2)
  | HostEvent.Contract ce :: rest, h =>
    let r := rollbackAux rest (h + 1)
    (HostEvent.Debug (summarizeRolledBack ce h) :: r.1, r.2 + 1)

/-- Modelled from the spec: `Events::rollback(events)` as pinned by
`test_event_rollback` (see `rollbackAux`). Events before the cursor are
kept; post-cursor events are rewritten in place by `rollbackAux`
(`nextHandle` being the host's next free object handle, 4 at the point the
test calls rollback); one final debug event carrying the count of
rolled-back contract events and the starting position is appended. -/
def rollback (events : Nat) (nextHandle : Nat) (es : List HostEvent) :
    List HostEvent :=
  let r := rollbackAux (es.drop events) nextHandle
  es.take events ++ r.1 ++
    [HostEvent.Debug
      { msg := some rolledBackCountMsg,
        args := [RawVal.U32 r.2, RawVal.U32 events] }]

/-- `snapshot()` returns the current journal length as a cursor. -/
def snapshot (es : List HostEvent) : Nat := es.length

/-- Modelled from the spec: `Events::externalize` renders the journal's
current contents in append order (converting contract events to XDR and
debug events to their rendered form, a change of representation only); at
the granularity of this embedding it is the identity on the event
sequence. -/
def externalize (es : List HostEvent) : List HostEvent := es

/-- First contract event recorded by `ContractWithMultipleEvents::call`:
type `Contract`, topics = host vector `#2` holding `[I32(0), I32(1)]`,
data `U32(0)`, contract id = the zero hash. -/
def ce1 : ContractEvent :=
  { contract_id := some 0, type_ := ContractEventType.Contract,
    topics := RawVal.ObjVec 2, data := RawVal.U32 0 }

/-- Second contract event recorded by the test contract: type `System`,
same topics and data. -/
def ce2 : ContractEvent :=
  { contract_id := some 0, type_ := ContractEventType.System,
    topics := RawVal.ObjVec 2, data := RawVal.U32 0 }

/-- The debug event recorded between the two contract events. -/
def debug0 : DebugEvent := { msg := some ("debug event 0"), args := [] }

/-- The journal contents after `ContractWithMultipleEvents::call` ran,
before `rollback(1)` is invoked. -/
def testJournal : List HostEvent :=
  [HostEvent.Contract ce1, HostEvent.Debug debug0, HostEvent.Contract ce2]

/-- The externalized journal pinned by the `expect!` block of
`test_event_rollback` after `rollback(1)`. -/
def testExpected : List HostEvent :=
  [HostEvent.Contract ce1,
    HostEvent.Debug debug0,
    HostEvent.Debug
      { msg := some rolledBackEventMsg,
        args := [RawVal.I32 0, RawVal.ObjBytes 4, RawVal.ObjVec 2, RawVal.U32 0] },
    HostEvent.Debug
      { msg := some rolledBackCountMsg,
        args := [RawVal.U32 1, RawVal.U32 1] }]

theorem rollbackAux_length :
    ∀ (l : List HostEvent) (h : Nat), (rollbackAux l h).1.length = l.length
  | [], _ => rfl
  | HostEvent.Debug d :: rest, h => by
    simp [rollbackAux, rollbackAux_length rest h]
  | HostEvent.Contract ce :: rest, h => by
    simp [rollbackAux, rollbackAux_length rest (h + 1)]

theorem rollbackAux_count :
    ∀ (l : List HostEvent) (h : Nat),
      (rollbackAux l h).2 = l.countP isContractEvent
  | [], _ => rfl
  | HostEvent.Debug d :: rest, h => by
    simp [rollbackAux, rollbackAux_count rest h, List.countP_cons, isContractEvent]
  | HostEvent.Contract ce :: rest, h => by
    simp [rollbackAux, rollbackAux_count rest (h + 1), List.countP_cons,
      isContractEvent]

theorem rollbackAux_getElem :
    ∀ (l : List HostEvent) (h j : Nat), j < l.length →
      ∃ ha, (rollbackAux l h).1[j]? =
        some (match l[j]? with
          | some (HostEvent.Debug d) => HostEvent.Debug d
          | some (HostEvent.Contract ce) =>
            HostEvent.Debug (summarizeRolledBack ce ha)
          | none => voidEvent)
  | [], _, j, hj => by simp at hj
  | HostEvent.Debug d :: rest, h, 0, _ => ⟨0, by simp [rollbackAux]⟩
  | HostEvent.Contract ce :: rest, h, 0, _ => ⟨h, by simp [rollbackAux]⟩
  | HostEvent.Debug d :: rest, h, j + 1, hj => by
    obtain ⟨ha, hrec⟩ := rollbackAux_getElem rest h j (by simpa using hj)
    exact ⟨ha, by simpa [rollbackAux] using hrec⟩
  | HostEvent.Contract ce :: rest, h, j + 1, hj => by
    obtain ⟨ha, hrec⟩ := rollbackAux_getElem rest (h + 1) j (by simpa using hj)
    exact ⟨ha, by simpa [rollbackAux] using hrec⟩

theorem rollback_take (es : List HostEvent) (cursor h : Nat)
    (hc : cursor ≤ es.length) :
    (rollback cursor h es).take cursor = es.take cursor := by
  unfold rollback
  rw [List.append_assoc, List.take_append_of_le_length
    (by rw [List.length_take]; omega)]
  exact List.take_of_length_le (by rw [List.length_take]; omega)

theorem rollback_length (es : List HostEvent) (cursor h : Nat)
    (hc : cursor ≤ es.length) :
    (rollback cursor h es).length = es.length + 1 := by
  unfold rollback
  simp only [List.length_append, rollbackAux_length, List.length_take,
    List.length_drop, List.length_cons, List.length_nil]
  omega

theorem rollback_getElem (es : List HostEvent) (cursor h i : Nat)
    (hc : cursor ≤ i) (hi : i < es.length) :
    ∃ ha, (rollback cursor h es)[i]? =
      some (match es[i]? with
        | some (HostEvent.Debug d) => HostEvent.Debug d
        | some (HostEvent.Contract ce) =>
          HostEvent.Debug (summarizeRolledBack ce ha)
        | none => voidEvent) := by
  have hcl : cursor ≤ es.length := le_trans hc (le_of_lt hi)
  obtain ⟨ha, haux⟩ := rollbackAux_getElem (es.drop cursor) h (i - cursor)
    (by rw [List.length_drop]; omega)
  refine ⟨ha, ?_⟩
  unfold rollback
  rw [List.append_assoc]
  rw [List.getElem?_append_right (by rw [List.length_take]; omega)]
  have hidx : i - (es.take cursor).length = i - cursor := by
    rw [List.length_take]
    omega
  rw [hidx]
  have hlt : i - cursor < (rollbackAux (es.drop cursor) h).1.length := by
    rw [rollbackAux_length, List.length_drop]
    omega
  rw [List.getElem?_append, if_pos hlt, haux]
  have hdrop : (es.drop cursor)[i - cursor]? = es[i]? := by
    rw [List.getElem?_drop]
    congr 1
    omega
  rw [hdrop]

theorem rollback_getLast (es : List HostEvent) (cursor h : Nat) :
    (rollback cursor h es).getLast? =
      some (HostEvent.Debug
        { msg := some rolledBackCountMsg,
          args := [RawVal.U32 ((es.drop cursor).countP isContractEvent),
            RawVal.U32 cursor] }) := by
  unfold rollback
  rw [List.getLast?_concat, rollbackAux_count]

theorem rollback_getElem_final (es : List HostEvent) (cursor h : Nat)
    (hc : cursor ≤ es.length) :
    (rollback cursor h es)[es.length]? =
      some (HostEvent.Debug
        { msg := some rolledBackCountMsg,
          args := [RawVal.U32 ((es.drop cursor).countP isContractEvent),
            RawVal.U32 cursor] }) := by
  unfold rollback
  rw [List.getElem?_append_right
    (by rw [List.length_append, List.length_take, rollbackAux_length,
      List.length_drop]; omega)]
  have hidx : es.length -
      (es.take cursor ++ (rollbackAux (es.drop cursor) h).1).length = 0 := by
    rw [List.length_append, List.length_take, rollbackAux_length,
      List.length_drop]
    omega
  rw [hidx, rollbackAux_count]
  rfl

end Events

/-- C1 counterexample: on the journal recorded by
`ContractWithMultipleEvents::call`, with cursor 1 (the snapshot of the
one-event prefix), `rollback(1)` followed by `externalize()` does NOT
yield only the events before the cursor: the pinned test output keeps the
post-cursor debug event, keeps a diagnostic carrying the rolled-back
event's topics and data, and appends a summary event. -/
theorem event_rollback_not_prefix_only :
    Events.snapshot (Events.testJournal.take 1) = 1 ∧
      Events.externalize (Events.rollback 1 4 Events.testJournal) ≠
        Events.testJournal.take 1 := by
  decide

/-- C1 (amended): for every journal and snapshot cursor,
`rollback(cursor)` followed by `externalize()` preserves the pre-cursor
events unchanged and in order, removes nothing (length grows by exactly
one), rewrites each post-cursor position in place (debug events survive
verbatim; each contract event is replaced by a debug diagnostic that still
carries its topics and data), and puts at the end exactly one summary
debug event holding the count of rolled-back contract events and the
starting position. -/
theorem event_rollback_externalize_behavior
    (es : List Events.HostEvent) (cursor h : Nat) (hc : cursor ≤ es.length) :
    ((Events.externalize (Events.rollback cursor h es)).take cursor =
        es.take cursor) ∧
    ((Events.externalize (Events.rollback cursor h es)).length =
        es.length + 1) ∧
    (∀ i, cursor ≤ i → i < es.length →
      ∃ ha, (Events.externalize (Events.rollback cursor h es))[i]? =
        some (match es[i]? with
          | some (Events.HostEvent.Debug d) => Events.HostEvent.Debug d
          | some (Events.HostEvent.Contract ce) =>
            Events.HostEvent.Debug (Events.summarizeRolledBack ce ha)
          | none => Events.voidEvent)) ∧
    ((Events.externalize (Events.rollback cursor h es))[es.length]? =
      some (Events.HostEvent.Debug
        { msg := some Events.rolledBackCountMsg,
          args := [Events.RawVal.U32
              ((es.drop cursor).countP Events.isContractEvent),
            Events.RawVal.U32 cursor] })) :=
  ⟨Events.rollback_take es cursor h hc,
    Events.rollback_length es cursor h hc,
    fun i hci hi => Events.rollback_getElem es cursor h i hci hi,
    Events.rollback_getElem_final es cursor h hc⟩

theorem event_rollback_externalize_behavior_witness :
    (Events.externalize (Events.rollback 1 4 Events.testJournal)).take 1 =
      Events.testJournal.take 1 :=
  (event_rollback_externalize_behavior Events.testJournal 1 4 (by decide)).1

/-- C2 counterexample: the claim's concrete example is wrong about the
code: after recording Contract/Debug/Contract(System) and calling
`rollback(1)`, the journal does not hold three events (prefix, one
diagnostic, one summary) — the pinned test output holds four (the
post-cursor debug event survives and only one contract event is counted as
rolled back). -/
theorem event_rollback_example_not_three_events :
    (Events.externalize (Events.rollback 1 4 Events.testJournal)).length ≠ 3 := by
  decide

/-- C2 (amended): `rollback(cursor)` keeps pre-cursor events, keeps
post-cursor debug events verbatim, replaces each post-cursor contract
event in place by one debug diagnostic (type, id, topics, data), truncates
nothing, and appends exactly one final debug event whose arguments are the
count of replaced contract events and the starting position; on the
recorded example journal, `rollback(1)` leaves exactly the four events
pinned by `test_event_rollback`: the original contract event, the original
debug event, the diagnostic of the System event, and the summary with
arguments (1, 1). -/
theorem event_rollback_replaces_in_place :
    Events.externalize (Events.rollback 1 4 Events.testJournal) =
      Events.testExpected ∧
    (∀ (es : List Events.HostEvent) (cursor h : Nat),
      (Events.rollback cursor h es).getLast? =
        some (Events.HostEvent.Debug
          { msg := some Events.rolledBackCountMsg,
            args := [Events.RawVal.U32
                ((es.drop cursor).countP Events.isContractEvent),
              Events.RawVal.U32 cursor] })) :=
  ⟨by decide, fun es cursor h => Events.rollback_getLast es cursor h⟩

namespace BudgetModel

/-- Modelled from the spec: the budget and cost-model implementation of
`soroban-env-host` is not under `src/` (only the offline calibration bench
harness `variation_histograms.rs` is). Per §3/§4.4 of the spec, a cost
model is, per resource dimension, either a constant or an affine function
(`slope × size + intercept`) of one declared input-size parameter. -/
inductive CostModel where
  | const (c : Nat)
  | affine (slope intercept : Nat)
deriving DecidableEq, Repr

/-- Evaluating the fitted model at the actual size parameter of a call. -/
def CostModel.eval : CostModel → Nat → Nat
  | CostModel.const c, _ => c
  | CostModel.affine slope intercept, size => slope * size + intercept

/-- Modelled from the spec: the two cumulative, monotonically increasing
budget counters (cpu, memory). -/
structure Budget where
  cpu : Nat
  mem : Nat
deriving DecidableEq, Repr

/-- A fresh host instance's budget: both counters start at zero. -/
def freshBudget : Budget := { cpu := 0, mem := 0 }

/-- One metered operation: its cpu and memory cost models and the actual
input-size parameter of the call. -/
structure ChargeOp where
  cpuModel : CostModel
  memModel : CostModel
  size : Nat
deriving DecidableEq, Repr

/-- Modelled from the spec: charging evaluates each fitted model at the
call's size parameter and adds the result to the cumulative counters. -/
def charge (b : Budget) (op : ChargeOp) : Budget :=
  { cpu := b.cpu + op.cpuModel.eval op.size,
    mem := b.mem + op.memModel.eval op.size }

/-- Replaying a sequence of operations against a budget state. -/
def runCharges (ops : List ChargeOp) (b : Budget) : Budget :=
  ops.foldl charge b

theorem runCharges_cpu :
    ∀ (ops : List ChargeOp) (b : Budget),
      (runCharges ops b).cpu =
        b.cpu + (ops.map (fun op => op.cpuModel.eval op.size)).sum
  | [], b => by simp [runCharges]
  | op :: rest, b => by
    simp only [runCharges, List.foldl_cons, List.map_cons, List.sum_cons]
    rw [show List.foldl charge (charge b op) rest = runCharges rest (charge b op)
      from rfl]
    rw [runCharges_cpu rest (charge b op)]
    simp [charge]
    omega

theorem runCharges_mem :
    ∀ (ops : List ChargeOp) (b : Budget),
      (runCharges ops b).mem =
        b.mem + (ops.map (fun op => op.memModel.eval op.size)).sum
  | [], b => by simp [runCharges]
  | op :: rest, b => by
    simp only [runCharges, List.foldl_cons, List.map_cons, List.sum_cons]
    rw [show List.foldl charge (charge b op) rest = runCharges rest (charge b op)
      from rfl]
    rw [runCharges_mem rest (charge b op)]
    simp [charge]
    omega

/-- A concrete operation sequence used to instantiate the determinism
theorem. -/
def wOps : List ChargeOp :=
  [ { cpuModel := CostModel.affine 2 3, memModel := CostModel.const 5, size := 7 },
    { cpuModel := CostModel.const 1, memModel := CostModel.affine 0 2, size := 4 } ]

end BudgetModel

/-- C7: budget charging is deterministic: any two runs of the same
operation sequence from a fresh host instance produce identical cumulative
budgets, and the resulting counters equal the closed-form sums of the
per-operation model evaluations — a function of the models and inputs
only, independent of any environment. -/
theorem budget_charging_deterministic
    (ops : List BudgetModel.ChargeOp) (r1 r2 : BudgetModel.Budget)
    (h1 : r1 = BudgetModel.runCharges ops BudgetModel.freshBudget)
    (h2 : r2 = BudgetModel.runCharges ops BudgetModel.freshBudget) :
    r1 = r2 ∧
      r1.cpu = (ops.map (fun op => op.cpuModel.eval op.size)).sum ∧
      r1.mem = (ops.map (fun op => op.memModel.eval op.size)).sum := by
  subst h1
  subst h2
  refine ⟨rfl, ?_, ?_⟩
  · rw [BudgetModel.runCharges_cpu]
    simp [BudgetModel.freshBudget]
  · rw [BudgetModel.runCharges_mem]
    simp [BudgetModel.freshBudget]

theorem budget_charging_deterministic_witness :
    (BudgetModel.runCharges BudgetModel.wOps BudgetModel.freshBudget).cpu = 18 ∧
      (BudgetModel.runCharges BudgetModel.wOps BudgetModel.freshBudget).mem = 7 := by
  have h := budget_charging_deterministic BudgetModel.wOps
    (BudgetModel.runCharges BudgetModel.wOps BudgetModel.freshBudget)
    (BudgetModel.runCharges BudgetModel.wOps BudgetModel.freshBudget) rfl rfl
  refine ⟨?_, ?_⟩
  · rw [h.2.1]
    decide
  · rw [h.2.2]
    decide

namespace TokenStorage

/-- `DAY_IN_LEDGERS` of `token/storage_types.rs`. -/
def DAY_IN_LEDGERS : Nat := 17280

/-- `INSTANCE_BUMP_AMOUNT = 7 * DAY_IN_LEDGERS`. -/
def INSTANCE_BUMP_AMOUNT : Nat := 7 * DAY_IN_LEDGERS

/-- `INSTANCE_LIFETIME_THRESHOLD = INSTANCE_BUMP_AMOUNT - DAY_IN_LEDGERS`. -/
def INSTANCE_LIFETIME_THRESHOLD : Nat := INSTANCE_BUMP_AMOUNT - DAY_IN_LEDGERS

/-- `BALANCE_BUMP_AMOUNT = 30 * DAY_IN_LEDGERS`. -/
def BALANCE_BUMP_AMOUNT : Nat := 30 * DAY_IN_LEDGERS

/-- `BALANCE_LIFETIME_THRESHOLD = BALANCE_BUMP_AMOUNT - DAY_IN_LEDGERS`. -/
def BALANCE_LIFETIME_THRESHOLD : Nat := BALANCE_BUMP_AMOUNT - DAY_IN_LEDGERS

end TokenStorage

/-- C10: the token contract's TTL constants: each lifetime threshold is its
bump amount minus one day of ledgers (`DAY_IN_LEDGERS = 17280`), with
`INSTANCE_BUMP_AMOUNT = 120960`, `INSTANCE_LIFETIME_THRESHOLD = 103680`,
`BALANCE_BUMP_AMOUNT = 518400`, `BALANCE_LIFETIME_THRESHOLD = 501120`;
each threshold is strictly positive and strictly below its bump amount,
and every constant (including the products `7 * 17280` and `30 * 17280`
and the subtractions) stays within `u32` range, so the `u32` computations
neither overflow nor underflow. -/
theorem token_ttl_constants :
    TokenStorage.DAY_IN_LEDGERS = 17280 ∧
    TokenStorage.INSTANCE_BUMP_AMOUNT = 120960 ∧
    TokenStorage.INSTANCE_LIFETIME_THRESHOLD = 103680 ∧
    TokenStorage.BALANCE_BUMP_AMOUNT = 518400 ∧
    TokenStorage.BALANCE_LIFETIME_THRESHOLD = 501120 ∧
    TokenStorage.INSTANCE_LIFETIME_THRESHOLD =
      TokenStorage.INSTANCE_BUMP_AMOUNT - TokenStorage.DAY_IN_LEDGERS ∧
    TokenStorage.BALANCE_LIFETIME_THRESHOLD =
      TokenStorage.BALANCE_BUMP_AMOUNT - TokenStorage.DAY_IN_LEDGERS ∧
    0 < TokenStorage.INSTANCE_LIFETIME_THRESHOLD ∧
    TokenStorage.INSTANCE_LIFETIME_THRESHOLD < TokenStorage.INSTANCE_BUMP_AMOUNT ∧
    0 < TokenStorage.BALANCE_LIFETIME_THRESHOLD ∧
    TokenStorage.BALANCE_LIFETIME_THRESHOLD < TokenStorage.BALANCE_BUMP_AMOUNT ∧
    TokenStorage.DAY_IN_LEDGERS ≤ TokenStorage.INSTANCE_BUMP_AMOUNT ∧
    TokenStorage.DAY_IN_LEDGERS ≤ TokenStorage.BALANCE_BUMP_AMOUNT ∧
    TokenStorage.INSTANCE_BUMP_AMOUNT < 2 ^ 32 ∧
    TokenStorage.BALANCE_BUMP_AMOUNT < 2 ^ 32 := by
  decide

theorem env_table_types_raw_val_except_witness :
    EnvDecl.contextMod ∈ EnvDecl.envModules ∧
      EnvDecl.objCmpFn ∈ EnvDecl.contextMod.functions ∧
      ((EnvDecl.objCmpFn.ret ≠ EnvDecl.HostTy.RawVal ∨
          ∃ a ∈ EnvDecl.objCmpFn.args, a.2 ≠ EnvDecl.HostTy.RawVal) ↔
        (EnvDecl.contextMod.name, EnvDecl.objCmpFn.name) ∈ EnvDecl.rawIntegerFns) :=
  ⟨by decide, by decide,
    env_table_types_raw_val_except EnvDecl.contextMod (by decide)
      EnvDecl.objCmpFn (by decide)⟩
